import Mathlib

/-!
Verification of the badly session-planning server.

The embedding below translates the core of the repository into Lean:

* `src/server.js` (second, current revision, `APP_VERSION = '1.3.5'`):
  session temporal predicates, purge-on-list, and the domain handlers
  (create / delete / join / leave / updateParticipants / edit /
  sendMessage) plus the reminder scan `checkUpcomingSessionReminders`.
* `src/server.js` (first, historical revision, `APP_VERSION = '1.1.1'`):
  its `handleCreateSession`, which additionally enforces the
  (club, datetime) uniqueness check.
* `src/notifications.js`: `getAllSubscriptions` and
  `sendPushNotifications` (delivery fan-out and subscription pruning).
* the storage module (`readFile` / `writeFile` generic file store with
  cache, atomic write and backup recovery).

Modelling conventions:

* Instants are integers (milliseconds since epoch), matching
  `Date.prototype.getTime`.
* A JavaScript datetime string is modelled by `DateStr`: its raw string
  identity (what `===` compares) together with its parse result
  (`none` models `Number.isNaN(new Date(s).getTime())`).
  `Date.prototype.toISOString` is modelled by the injective `toISO`.
* JavaScript numbers in payloads are modelled as integers; prices are
  carried in cents so that the two-decimal rounding is exact.  The
  `Number.isFinite` / `Number.isInteger` intake checks hold by
  construction and are not repeated.
* HTTP glue (content-type check, body parsing, cookie authentication)
  is outside the verified core; handlers are modelled from the point
  where the authenticated user and the typed payload are available.
* `sendError` sites are modelled by the `ApiErr` enumeration, one
  constructor per distinct error message of the source.
* Fire-and-forget notification dispatches are modelled as a list of
  emitted `Event`s returned by each handler.
-/

namespace Badly

/-- Model of a JavaScript datetime string: `raw` is the string itself
(the identity compared by `===`), `parsed` is `new Date(raw).getTime()`
(`none` when that is `NaN`). -/
structure DateStr where
  raw : String
  parsed : Option Int
deriving Repr, DecidableEq

/-- Model of `Date.prototype.toISOString` applied to a valid instant:
an injective rendering whose parse returns the instant itself. -/
def toISO (t : Int) : DateStr :=
  ⟨"ISO:" ++ toString t, some t⟩

/-- Model of `String.prototype.trim`, on the character list so that it
evaluates inside the kernel. -/
def jsTrim (s : String) : String :=
  ⟨((s.data.dropWhile Char.isWhitespace).reverse.dropWhile
      Char.isWhitespace).reverse⟩

/-- Model of `String.prototype.toLowerCase` (ASCII range), on the
character list so that it evaluates inside the kernel. -/
def jsToLower (s : String) : String :=
  ⟨s.data.map Char.toLower⟩

/-- A chat message, `{ id, sender, text, timestamp }` in `server.js`. -/
structure Message where
  id : String
  sender : String
  text : String
  timestamp : Int
deriving Repr, DecidableEq

/-- A stored session record, as created by `handleCreateSession`.
The historical revision also stores `guests`; the current revision
leaves the field absent, which reads back as `0`. -/
structure Session where
  id : String
  datetime : DateStr
  durationMinutes : Int
  club : String
  level : String
  capacity : Int
  /-- price in cents (two-decimal precision is exact in cents) -/
  pricePerParticipant : Int
  organizer : String
  participants : List String
  guests : Int
  followers : List String
  messages : List Message
  createdAt : Int
  reminderSent : Bool
deriving Repr, DecidableEq

/-- A push subscription stored on a user
(`{ endpoint, keys, expirationTime, createdAt, updatedAt }`). -/
structure PushSubscription where
  endpoint : String
  keys : String
  expirationTime : Option Int
  createdAt : Int
  updatedAt : Option Int
deriving Repr, DecidableEq

/-- A stored user record from the Users collection. -/
structure User where
  name : String
  normalized : String
  passwordHash : String
  createdAt : Int
  pushSubscriptions : List PushSubscription
deriving Repr, DecidableEq

/-- One `sendError` site per constructor; the comment gives the
source message. -/
inductive ApiErr
  /-- "Date/heure invalide" (400) -/
  | invalidDatetime
  /-- "La session doit etre dans le futur" (400) -/
  | datetimeInPast
  /-- "Duree invalide" (400) -/
  | invalidDuration
  /-- "Club invalide" (400) -/
  | invalidClub
  /-- "Club inconnu" (400) -/
  | unknownClub
  /-- "Niveau invalide" (400) -/
  | invalidLevel
  /-- "Capacite invalide" (400) -/
  | invalidCapacity
  /-- "Prix invalide" (400) -/
  | invalidPrice
  /-- "Une session existe deja pour ce club a cette date" (400),
  historical revision only -/
  | duplicateSession
  /-- "Limite de sessions atteinte" (400) -/
  | maxSessions
  /-- "Session introuvable" (404) -/
  | sessionNotFound
  /-- "La session est deja commencee" (400) -/
  | alreadyStarted
  /-- "Organisateur deja inscrit" (400) -/
  | organizerAlreadyJoined
  /-- "Utilisateur deja inscrit" (400) -/
  | alreadyJoined
  /-- "Session complete" (400) -/
  | sessionFull
  /-- "L organisateur ne peut se desinscrire" (400) -/
  | organizerCannotLeave
  /-- "Utilisateur non inscrit" (400) -/
  | notJoined
  /-- "Seul l organisateur peut modifier les participants" (403) -/
  | updateNotOrganizer
  /-- "Nom de participant invalide (1-20 caracteres)" (400) -/
  | invalidParticipantName
  /-- "L organisateur ne peut pas etre ajoute comme participant" (400) -/
  | organizerInParticipants
  /-- "Trop de participants pour la capacite de la session" (400) -/
  | tooManyParticipants
  /-- "Seul l organisateur peut supprimer la session" (403) -/
  | deleteNotOrganizer
  /-- "Seul l organisateur peut modifier la session" (403) -/
  | editNotOrganizer
  /-- "La capacite ne peut etre inferieure au nombre actuel de
  participants" (400) -/
  | capacityBelowCurrent
  /-- "Vous devez etre participant ou interesse pour envoyer un
  message" (403) -/
  | notMember
  /-- "Message manquant" (400) -/
  | messageMissing
  /-- "Le message ne peut pas etre vide" (400) -/
  | messageEmpty
  /-- "Le message ne peut pas depasser 500 caracteres" (400) -/
  | messageTooLong
deriving Repr, DecidableEq

/-- Fire-and-forget notification dispatches emitted by the handlers. -/
inductive Event
  | newSession (sid : String)
  | participantJoined (sid : String) (name : String)
  | participantLeft (sid : String) (name : String)
  | spotAvailable (sid : String)
  | reminder (sid : String)
  | chatMessage (sid : String) (sender : String)
deriving Repr, DecidableEq

/-- `MAX_SESSIONS` (both revisions). -/
def MAX_SESSIONS : Nat := 16

/-- `MAX_MESSAGES_PER_SESSION`. -/
def MAX_MESSAGES_PER_SESSION : Nat := 50

/-- `REMINDER_MINUTES_BEFORE_START` (notifications module). -/
def REMINDER_MINUTES_BEFORE_START : Int := 45

/-- `sessionHasExpired(session, referenceDate)` from `server.js`:
an unparsable datetime counts as expired; otherwise the reference
time must be strictly past `start + durationMinutes * 60000`. -/
def sessionHasExpired (s : Session) (ref : Int) : Bool :=
  match s.datetime.parsed with
  | none => true
  | some start => ref > start + s.durationMinutes * 60000

/-- `sessionHasStarted(session, referenceDate)` from `server.js`:
an unparsable datetime counts as started; otherwise the reference
time must have reached the start. -/
def sessionHasStarted (s : Session) (ref : Int) : Bool :=
  match s.datetime.parsed with
  | none => true
  | some start => ref ≥ start

/-- `purgeExpiredSessions` from the current `server.js`: filter out
the expired sessions and persist the remaining list (writing only
when something was dropped leaves the same stored list). -/
def purgeExpiredSessions (sessions : List Session) (now : Int) : List Session :=
  sessions.filter (fun s => !sessionHasExpired s now)

/-- `handleListSessions`: the listing endpoint first purges expired
sessions; the stored collection afterwards is the purge result. -/
def listSessionsStored (sessions : List Session) (now : Int) : List Session :=
  purgeExpiredSessions sessions now

/-- `sessions.find((s) => s.id === sessionId)`. -/
def findSession (sessions : List Session) (sid : String) : Option Session :=
  sessions.find? (fun s => s.id == sid)

/-- In the handlers the session object returned by `find` is mutated in
place inside the array; this replaces the first element with the
matching id, leaving the rest untouched. -/
def replaceFirstById : List Session → String → Session → List Session
  | [], _, _ => []
  | s :: rest, sid, s' =>
    if s.id == sid then s' :: rest else s :: replaceFirstById rest sid s'

/-- The body of `handleJoinSession` (current revision) once the session
`s` has been found in the list. -/
def joinSessionFound (sessions : List Session) (sid : String) (user : String)
    (now : Int) (s : Session) :
    Except ApiErr (List Session × Session × List Event) :=
  if sessionHasStarted s now then .error .alreadyStarted
  else if s.organizer == user then .error .organizerAlreadyJoined
  else if s.participants.contains user then .error .alreadyJoined
  else if (s.participants.length : Int) + 1 ≥ s.capacity then .error .sessionFull
  else
    .ok (replaceFirstById sessions sid
           { s with participants := s.participants ++ [user] },
         { s with participants := s.participants ++ [user] },
         [Event.participantJoined s.id user])

/-- `handleJoinSession` (current revision), from the point where the
authenticated user and the parsed payload are available. -/
def joinSession (sessions : List Session) (sid : String) (user : String)
    (now : Int) : Except ApiErr (List Session × Session × List Event) :=
  match findSession sessions sid with
  | none => .error .sessionNotFound
  | some s => joinSessionFound sessions sid user now s

/-- `handleLeaveSession` (current revision).  Fullness is computed
before removal; a leave from a full session additionally emits the
spot-available dispatch (after the participant-left one). -/
def leaveSessionFound (sessions : List Session) (sid : String) (user : String)
    (now : Int) (s : Session) :
    Except ApiErr (List Session × Session × List Event) :=
  if s.organizer == user then .error .organizerCannotLeave
  else if !s.participants.contains user then .error .notJoined
  else if sessionHasStarted s now then .error .alreadyStarted
  else
    .ok (replaceFirstById sessions sid
           { s with participants := s.participants.filter (fun n => n ≠ user) },
         { s with participants := s.participants.filter (fun n => n ≠ user) },
         Event.participantLeft s.id user ::
           (if (s.participants.length : Int) + 1 ≥ s.capacity then
             [Event.spotAvailable s.id]
           else []))

/-- `handleLeaveSession` (current revision): dispatcher on the session
lookup. -/
def leaveSession (sessions : List Session) (sid : String) (user : String)
    (now : Int) : Except ApiErr (List Session × Session × List Event) :=
  match findSession sessions sid with
  | none => .error .sessionNotFound
  | some s => leaveSessionFound sessions sid user now s

/-- The participant-name validation loop of `handleUpdateParticipants`:
trim each name, reject empty / over-20-character names and any name
equal (case-insensitively) to the organizer, collecting the trimmed
names in order.  (The `typeof name !== 'string'` intake check holds by
construction.) -/
def validateParticipantNames (organizer : String) :
    List String → Except ApiErr (List String)
  | [] => .ok []
  | n :: rest =>
    if (jsTrim n).length == 0 || (jsTrim n).length > 20 then
      .error .invalidParticipantName
    else if jsToLower (jsTrim n) == jsToLower organizer then
      .error .organizerInParticipants
    else
      match validateParticipantNames organizer rest with
      | .error e => .error e
      | .ok rest' => .ok (jsTrim n :: rest')

/-- The capacity check and bulk replacement of
`handleUpdateParticipants`, applied to the validated name list;
fullness is computed before the replacement. -/
def updateParticipantsValidated (sessions : List Session) (sid : String)
    (s : Session) (normalizedParticipants : List String) :
    Except ApiErr (List Session × Session × List Event) :=
  if (normalizedParticipants.length : Int) + 1 > s.capacity then
    .error .tooManyParticipants
  else
    .ok (replaceFirstById sessions sid
           { s with participants := normalizedParticipants },
         { s with participants := normalizedParticipants },
         if (s.participants.length : Int) + 1 ≥ s.capacity ∧
             (normalizedParticipants.length : Int) + 1 < s.capacity then
           [Event.spotAvailable s.id]
         else [])

/-- The body of `handleUpdateParticipants` once the session has been
found. -/
def updateParticipantsFound (sessions : List Session) (sid : String)
    (user : String) (names : List String) (now : Int) (s : Session) :
    Except ApiErr (List Session × Session × List Event) :=
  if s.organizer ≠ user then .error .updateNotOrganizer
  else if sessionHasStarted s now then .error .alreadyStarted
  else
    match validateParticipantNames s.organizer names with
    | .error e => .error e
    | .ok normalizedParticipants =>
      updateParticipantsValidated sessions sid s normalizedParticipants

/-- `handleUpdateParticipants` (current revision): organizer-only bulk
replacement of the participants list. -/
def updateParticipants (sessions : List Session) (sid : String)
    (user : String) (names : List String) (now : Int) :
    Except ApiErr (List Session × Session × List Event) :=
  match findSession sessions sid with
  | none => .error .sessionNotFound
  | some s => updateParticipantsFound sessions sid user names now s

/-- `handleDeleteSession`'s `findIndex` + `splice(index, 1)`: locate the
first session with the given id, returning it and the list without it. -/
def removeSessionById : List Session → String → Option (Session × List Session)
  | [], _ => none
  | s :: rest, sid =>
    if s.id == sid then some (s, rest)
    else
      match removeSessionById rest sid with
      | none => none
      | some (t, l) => some (t, s :: l)

/-- The full mutable server state: the three entity collections.
(Clubs are read-only for the core.) -/
structure ServerState where
  users : List User
  sessions : List Session
  clubs : List String
deriving Repr, DecidableEq

/-- `handleDeleteSession` (current revision): organizer-only removal of
the targeted session; no notification dispatch is triggered and only
the sessions collection is written. -/
def handleDeleteSession (st : ServerState) (sid : String) (user : String) :
    Except ApiErr (ServerState × List Event) :=
  match removeSessionById st.sessions sid with
  | none => .error .sessionNotFound
  | some (target, remaining) =>
    if target.organizer ≠ user then .error .deleteNotOrganizer
    else .ok ({ st with sessions := remaining }, [])

/-- The typed create/edit payload, after the `typeof` intake checks.
Numbers are integers (prices in cents), see the module header. -/
structure SessionPayload where
  datetime : DateStr
  durationMinutes : Int
  club : String
  level : String
  capacity : Int
  /-- price in cents -/
  pricePerParticipant : Int
deriving Repr, DecidableEq

/-- `allowedLevels` (identical in both revisions). -/
def allowedLevels : List String :=
  ["débutant", "débutant/moyen", "moyen", "confirmé"]

/-- The session object literal both create handlers store on success
(the historical one also writes `guests: 0`; in the current one the
absent field reads back as `0`). -/
def newSessionRecord (organizer : String) (p : SessionPayload) (t : Int)
    (newId : String) (createdAt : Int) : Session :=
  { id := newId
    datetime := toISO t
    durationMinutes := p.durationMinutes
    club := jsTrim p.club
    level := jsTrim p.level
    capacity := p.capacity
    pricePerParticipant := p.pricePerParticipant
    organizer := organizer
    participants := []
    guests := 0
    followers := []
    messages := []
    createdAt := createdAt
    reminderSent := false }

/-- `handleCreateSession` (current revision, `APP_VERSION = '1.3.5'`).
Validation order follows the source; `newId` models
`crypto.randomUUID()` and `createdAt` the creation timestamp.  Note:
this revision performs no (club, datetime) uniqueness check. -/
def createSessionChecked (clubs : List String) (sessions : List Session)
    (organizer : String) (p : SessionPayload) (now : Int)
    (newId : String) (createdAt : Int) (t : Int) :
    Except ApiErr (List Session × Session × List Event) :=
  if t < now - 5 * 60 * 1000 then .error .datetimeInPast
    else if ¬(0 < p.durationMinutes ∧ p.durationMinutes ≤ 300) then
      .error .invalidDuration
    else if jsTrim p.club == "" then .error .invalidClub
    else if clubs.length ≠ 0 ∧ ¬clubs.contains (jsTrim p.club) then
      .error .unknownClub
    else if jsTrim p.level == "" ∨ ¬allowedLevels.contains (jsTrim p.level) then
      .error .invalidLevel
    else if ¬(1 ≤ p.capacity ∧ p.capacity ≤ 12) then .error .invalidCapacity
    else if p.pricePerParticipant < 0 then .error .invalidPrice
    else if sessions.length ≥ MAX_SESSIONS then .error .maxSessions
    else
      .ok (sessions ++ [newSessionRecord organizer p t newId createdAt],
           newSessionRecord organizer p t newId createdAt,
           [Event.newSession newId])

/-- `handleCreateSession` (current revision), dispatching on the
datetime parse result. -/
def createSession (clubs : List String) (sessions : List Session)
    (organizer : String) (p : SessionPayload) (now : Int)
    (newId : String) (createdAt : Int) :
    Except ApiErr (List Session × Session × List Event) :=
  match p.datetime.parsed with
  | none => .error .invalidDatetime
  | some t => createSessionChecked clubs sessions organizer p now newId createdAt t

/-- `handleCreateSession` (historical revision, `APP_VERSION = '1.1.1'`):
same validation pipeline, followed by the (club, datetime) uniqueness
check (`data.sessions.some(...)`, message "Une session existe deja pour
ce club a cette date") before the collection-size ceiling. -/
def legacyCreateSessionChecked (clubs : List String)
    (sessions : List Session) (organizer : String) (p : SessionPayload)
    (now : Int) (newId : String) (createdAt : Int) (t : Int) :
    Except ApiErr (List Session × Session × List Event) :=
  if t < now - 5 * 60 * 1000 then .error .datetimeInPast
    else if ¬(0 < p.durationMinutes ∧ p.durationMinutes ≤ 300) then
      .error .invalidDuration
    else if jsTrim p.club == "" then .error .invalidClub
    else if clubs.length ≠ 0 ∧ ¬clubs.contains (jsTrim p.club) then
      .error .unknownClub
    else if jsTrim p.level == "" ∨ ¬allowedLevels.contains (jsTrim p.level) then
      .error .invalidLevel
    else if ¬(1 ≤ p.capacity ∧ p.capacity ≤ 12) then .error .invalidCapacity
    else if p.pricePerParticipant < 0 then .error .invalidPrice
    else if sessions.any (fun s =>
        s.club == jsTrim p.club && s.datetime.raw == (toISO t).raw) then
      .error .duplicateSession
    else if sessions.length ≥ MAX_SESSIONS then .error .maxSessions
    else
      .ok (sessions ++ [newSessionRecord organizer p t newId createdAt],
           newSessionRecord organizer p t newId createdAt,
           [Event.newSession newId])

/-- `handleCreateSession` (historical revision), dispatching on the
datetime parse result. -/
def legacyCreateSession (clubs : List String) (sessions : List Session)
    (organizer : String) (p : SessionPayload) (now : Int)
    (newId : String) (createdAt : Int) :
    Except ApiErr (List Session × Session × List Event) :=
  match p.datetime.parsed with
  | none => .error .invalidDatetime
  | some t =>
    legacyCreateSessionChecked clubs sessions organizer p now newId createdAt t

/-- The field updates `handleEditSession` applies to the stored session
on success: `reminderSent` is reset exactly when the stored datetime
string changed (`session.datetime !== originalDatetime`). -/
def editedSessionRecord (s : Session) (p : SessionPayload) (t : Int) :
    Session :=
  { s with
    datetime := toISO t
    durationMinutes := p.durationMinutes
    club := jsTrim p.club
    level := jsTrim p.level
    capacity := p.capacity
    pricePerParticipant := p.pricePerParticipant
    reminderSent :=
      if (toISO t).raw ≠ s.datetime.raw then false else s.reminderSent }

/-- `handleEditSession` (current revision): organizer-only, before
start; re-validates the payload, requires the new capacity to cover the
current occupancy, and resets `reminderSent` exactly when the stored
datetime string changed. -/
def editSessionChecked (clubs : List String) (sessions : List Session)
    (sid : String) (p : SessionPayload) (now : Int) (s : Session)
    (t : Int) : Except ApiErr (List Session × Session) :=
  if t < now - 5 * 60 * 1000 then .error .datetimeInPast
  else if ¬(0 < p.durationMinutes ∧ p.durationMinutes ≤ 300) then
    .error .invalidDuration
  else if jsTrim p.club == "" then .error .invalidClub
  else if clubs.length ≠ 0 ∧ ¬clubs.contains (jsTrim p.club) then
    .error .unknownClub
  else if jsTrim p.level == "" ∨
      ¬allowedLevels.contains (jsTrim p.level) then
    .error .invalidLevel
  else if ¬(1 ≤ p.capacity ∧ p.capacity ≤ 12) then .error .invalidCapacity
  else if p.capacity < (s.participants.length : Int) + 1 then
    .error .capacityBelowCurrent
  else if p.pricePerParticipant < 0 then .error .invalidPrice
  else
    .ok (replaceFirstById sessions sid (editedSessionRecord s p t),
         editedSessionRecord s p t)

/-- The body of `handleEditSession` once the session has been found. -/
def editSessionFound (clubs : List String) (sessions : List Session)
    (user : String) (sid : String) (p : SessionPayload) (now : Int)
    (s : Session) : Except ApiErr (List Session × Session) :=
  if s.organizer ≠ user then .error .editNotOrganizer
  else if sessionHasStarted s now then .error .alreadyStarted
  else
    match p.datetime.parsed with
    | none => .error .invalidDatetime
    | some t => editSessionChecked clubs sessions sid p now s t

/-- `handleEditSession` (current revision), dispatching on the session
lookup. -/
def editSession (clubs : List String) (sessions : List Session)
    (user : String) (sid : String) (p : SessionPayload) (now : Int) :
    Except ApiErr (List Session × Session) :=
  match findSession sessions sid with
  | none => .error .sessionNotFound
  | some s => editSessionFound clubs sessions user sid p now s

/-- The `slice(-MAX_MESSAGES_PER_SESSION)` history cap applied after
appending a message. -/
def truncateMessages (msgs : List Message) : List Message :=
  if msgs.length > MAX_MESSAGES_PER_SESSION then
    msgs.drop (msgs.length - MAX_MESSAGES_PER_SESSION)
  else msgs

/-- `handleSendMessage` (current revision): only before start, only for
the organizer, a participant or a follower; the trimmed text must be
1-500 characters and the stored history is truncated to the last
`MAX_MESSAGES_PER_SESSION` entries. -/
def sendMessageFound (sessions : List Session) (sid : String)
    (user : String) (text : String) (now : Int) (msgId : String)
    (ts : Int) (s : Session) :
    Except ApiErr (List Session × Message × List Event) :=
  if sessionHasStarted s now then .error .alreadyStarted
  else if ¬(s.organizer == user ∨ s.participants.contains user ∨
      s.followers.contains user) then .error .notMember
  else if text == "" then .error .messageMissing
  else if (jsTrim text).length == 0 then .error .messageEmpty
  else if (jsTrim text).length > 500 then .error .messageTooLong
  else
    .ok (replaceFirstById sessions sid
           { s with messages := truncateMessages (s.messages ++
               [{ id := msgId, sender := user, text := jsTrim text,
                  timestamp := ts }]) },
         { id := msgId, sender := user, text := jsTrim text,
           timestamp := ts },
         [Event.chatMessage s.id user])

/-- `handleSendMessage` (current revision), dispatching on the session
lookup. -/
def sendMessage (sessions : List Session) (sid : String) (user : String)
    (text : String) (now : Int) (msgId : String) (ts : Int) :
    Except ApiErr (List Session × Message × List Event) :=
  match findSession sessions sid with
  | none => .error .sessionNotFound
  | some s => sendMessageFound sessions sid user text now msgId ts s

/-- `REMINDER_MINUTES_BEFORE_START * 60 * 1000`. -/
def reminderWindowMs : Int := REMINDER_MINUTES_BEFORE_START * 60 * 1000

/-- The lead-window test of `checkUpcomingSessionReminders`: when the
time to start is positive and within the window, set `reminderSent` and
dispatch the reminder. -/
def reminderWindowFire (now : Int) (s : Session) (start : Int) :
    Session × List Event :=
  if 0 < start - now ∧ start - now ≤ reminderWindowMs then
    ({ s with reminderSent := true }, [Event.reminder s.id])
  else (s, [])

/-- The per-session body of the `checkUpcomingSessionReminders` loop
(current revision): skip a session already reminded, already started,
or with an unparsable datetime (unreachable after the started check,
kept for faithfulness); otherwise apply the lead-window test. -/
def reminderScanStep (now : Int) (s : Session) : Session × List Event :=
  if s.reminderSent then (s, [])
  else if sessionHasStarted s now then (s, [])
  else
    match s.datetime.parsed with
    | none => (s, [])
    | some start => reminderWindowFire now s start

/-- `checkUpcomingSessionReminders` (current revision): one scan pass
over the whole session list, returning the persisted list and the
reminder dispatches emitted. -/
def checkUpcomingSessionReminders (sessions : List Session) (now : Int) :
    List Session × List Event :=
  (sessions.map (fun s => (reminderScanStep now s).1),
   (sessions.map (fun s => (reminderScanStep now s).2)).flatten)

/-- Repeated scheduler runs: one scan per tick time, threading the
persisted session list, accumulating all emitted events. -/
def reminderScanSeq (sessions : List Session) :
    List Int → List Session × List Event
  | [] => (sessions, [])
  | t :: ts =>
    let r₁ := checkUpcomingSessionReminders sessions t
    let r₂ := reminderScanSeq r₁.1 ts
    (r₂.1, r₁.2 ++ r₂.2)

/-- Number of reminder dispatches for one session id in an event
trace. -/
def remindersFor (events : List Event) (sid : String) : Nat :=
  events.countP (fun e => e == Event.reminder sid)

/-- One domain mutation request against the sessions collection, for
stating invariants over operation sequences. -/
inductive SessionOp
  | join (sid : String) (user : String) (now : Int)
  | leave (sid : String) (user : String) (now : Int)
  | updateParts (sid : String) (actor : String) (names : List String) (now : Int)
deriving Repr, DecidableEq

/-- Apply one operation: the persisted list on success, the untouched
pre-state on rejection (errors are returned before any write). -/
def applyOp (sessions : List Session) : SessionOp → Except ApiErr (List Session)
  | .join sid user now =>
    (joinSession sessions sid user now).map (fun r => r.1)
  | .leave sid user now =>
    (leaveSession sessions sid user now).map (fun r => r.1)
  | .updateParts sid actor names now =>
    (updateParticipants sessions sid actor names now).map (fun r => r.1)

/-- Run a sequence of operations; a rejected operation leaves the
collection unchanged. -/
def runOps (sessions : List Session) : List SessionOp → List Session
  | [] => sessions
  | op :: ops =>
    match applyOp sessions op with
    | .ok l => runOps l ops
    | .error _ => runOps sessions ops

/-- The capacity invariant of the data model:
`participants.length + 1 <= capacity` for every stored session. -/
def capacityInv (sessions : List Session) : Prop :=
  ∀ s ∈ sessions, (s.participants.length : Int) + 1 ≤ s.capacity

/-! ### Storage module (`readFile` / `writeFile`) -/

/-- What a backing file can hold, as seen by
`raw.trim() ? JSON.parse(raw) : seed` plus the `Array.isArray` check:
whitespace-only content parses to the seed, malformed JSON throws,
non-array JSON throws, and an array parses to its elements. -/
inductive FileContent (α : Type)
  | blank
  | malformed
  | nonArray
  | arr (xs : List α)
deriving Repr, DecidableEq

/-- `raw.trim() ? JSON.parse(raw) : seed` followed by the
`Array.isArray` check; `none` models the thrown error. -/
def parseContent {α : Type} (c : FileContent α) (seed : List α) :
    Option (List α) :=
  match c with
  | .blank => some seed
  | .malformed => none
  | .nonArray => none
  | .arr xs => some xs

/-- One entity store: primary file, backup file (`none` models an
absent file) and the in-process cache variable. -/
structure Store (α : Type) where
  primary : Option (FileContent α)
  backup : Option (FileContent α)
  cache : Option (List α)
deriving Repr, DecidableEq

/-- `writeFile(filePath, data, setCache)`: atomic write of the primary,
best-effort write of the backup, then cache update. -/
def writeFile {α : Type} (data : List α) : Store α :=
  ⟨some (.arr data), some (.arr data), some data⟩

/-- Result of one `readFile` call: the returned value (`.error ()`
models the thrown "Invalid content" error), the store state afterwards,
and whether any disk access happened. -/
structure ReadOutcome (α : Type) where
  result : Except Unit (List α)
  store : Store α
  touchedDisk : Bool
deriving Repr

/-- `readFile(filePath, cache, setCache, seed)` from the storage
module: cache hit returns without disk access; an absent primary is
seeded via `writeFile`; a parsable primary is cached and returned; an
invalid primary falls back to the backup, restoring the primary from it
on success; when the backup is absent or also invalid the call throws
instead of fabricating data. -/
def readFile {α : Type} (st : Store α) (seed : List α) : ReadOutcome α :=
  match st.cache with
  | some c => ⟨.ok c, st, false⟩
  | none =>
    match st.primary with
    | none => ⟨.ok seed, writeFile seed, true⟩
    | some content =>
      match parseContent content seed with
      | some xs => ⟨.ok xs, { st with cache := some xs }, true⟩
      | none =>
        match st.backup with
        | none => ⟨.error (), st, true⟩
        | some backupContent =>
          match parseContent backupContent seed with
          | none => ⟨.error (), st, true⟩
          | some xs => ⟨.ok xs, writeFile xs, true⟩

/-! ### Notification dispatch (`notifications.js`) -/

/-- An element of the list built by `getAllSubscriptions`. -/
structure SubscriptionInfo where
  endpoint : String
  keys : String
  expirationTime : Option Int
  userName : String
  createdAt : Int
  updatedAt : Option Int
deriving Repr, DecidableEq

/-- The per-user filter of `getAllSubscriptions`: users with no
subscriptions are skipped, then the optional target-user filter
(case-insensitive) and the optional exclusion list (empty strings
dropped, case-insensitive) are applied. -/
def subscriptionUserKept (u : User) (targetUser : Option String)
    (excludedUsers : Option (List String)) : Bool :=
  if u.pushSubscriptions.isEmpty then false
  else
    let skippedByTarget : Bool :=
      match targetUser with
      | some t => jsToLower u.name != jsToLower t
      | none => false
    let skippedByExclusion : Bool :=
      match excludedUsers with
      | some ex =>
        (!ex.isEmpty) &&
          ((ex.filter (fun n => n != "")).map (fun n => jsToLower n)).contains
            (jsToLower u.name)
      | none => false
    if skippedByTarget then false
    else if skippedByExclusion then false
    else true

/-- `getAllSubscriptions(users, { targetUser, excludedUsers })`. -/
def getAllSubscriptions (users : List User) (targetUser : Option String)
    (excludedUsers : Option (List String)) : List SubscriptionInfo :=
  (users.filter (fun u => subscriptionUserKept u targetUser excludedUsers)).flatMap
    (fun u => u.pushSubscriptions.map (fun sub =>
      ⟨sub.endpoint, sub.keys, sub.expirationTime, u.name,
       sub.createdAt, sub.updatedAt⟩))

/-- `sendSpotAvailableNotification` resolves its recipients through
`sendPushNotifications(title, body, tag)` with no target user and no
exclusion list: every stored subscription is a recipient. -/
def spotAvailableRecipients (users : List User) : List SubscriptionInfo :=
  getAllSubscriptions users none none

/-- Outcome of one `webpush.sendNotification` call: success, or a
rejection carrying `err.statusCode`. -/
inductive DeliveryResult
  | delivered
  | failed (statusCode : Int)
deriving Repr, DecidableEq

/-- Whether a delivery outcome marks the endpoint for pruning
(`err.statusCode === 410 || err.statusCode === 404`). -/
def prunableFailure (r : DeliveryResult) : Bool :=
  match r with
  | .delivered => false
  | .failed statusCode => statusCode == 410 || statusCode == 404

/-- The endpoints collected in `failedEndpoints` during the fan-out:
those of candidate subscriptions whose delivery failed with 410/404. -/
def failedEndpointsOf (users : List User)
    (deliver : String → DeliveryResult) (targetUser : Option String)
    (excludedUsers : Option (List String)) : List String :=
  ((getAllSubscriptions users targetUser excludedUsers).filter
      (fun sub => prunableFailure (deliver sub.endpoint))).map
    (fun sub => sub.endpoint)

/-- The cleanup loop: drop from every user the subscriptions whose
endpoint is in the failed set. -/
def prunedUsers (users : List User) (failedEndpoints : List String) :
    List User :=
  users.map (fun u =>
    { u with pushSubscriptions :=
        u.pushSubscriptions.filter (fun sub =>
          ¬ failedEndpoints.contains sub.endpoint) })

/-- `sendPushNotifications(title, body, tag, targetUser, excludedUsers)`
from `src/notifications.js` (title/body/tag only shape the payload and
are omitted).  `deliver` models the push transport per endpoint.  Every
candidate subscription is attempted (a failure is caught per
iteration); afterwards the endpoints that failed with 410/404 are
filtered out of every user and, if any, the Users collection is
persisted.  Returns the persisted users, the attempted endpoints in
order, and whether `writeUsers` ran. -/
def sendPushNotifications (users : List User)
    (deliver : String → DeliveryResult) (targetUser : Option String)
    (excludedUsers : Option (List String)) :
    List User × List String × Bool :=
  if (failedEndpointsOf users deliver targetUser excludedUsers).isEmpty then
    (users,
     (getAllSubscriptions users targetUser excludedUsers).map
       (fun sub => sub.endpoint),
     false)
  else
    (prunedUsers users (failedEndpointsOf users deliver targetUser excludedUsers),
     (getAllSubscriptions users targetUser excludedUsers).map
       (fun sub => sub.endpoint),
     true)

/-! ## Concrete fixtures used by witnesses and counterexamples -/

/-- A concrete stored session: organizer `olga`, one participant. -/
def fixDeleteSession : Session :=
  { id := "sid1", datetime := toISO 1000, durationMinutes := 60,
    club := "ClubA", level := "moyen", capacity := 4,
    pricePerParticipant := 500, organizer := "olga",
    participants := ["alice"], guests := 0, followers := [],
    messages := [], createdAt := 0, reminderSent := false }

/-- Server state holding only `fixDeleteSession`. -/
def fixDeleteBefore : ServerState := ⟨[], [fixDeleteSession], ["ClubA"]⟩

/-- `fixDeleteBefore` after the session is deleted. -/
def fixDeleteAfter : ServerState := ⟨[], [], ["ClubA"]⟩

/-- No two sessions of the list share a (club, datetime) pair
(datetime compared as the stored string, as `===` does). -/
def distinctClubDatetime (sessions : List Session) : Prop :=
  sessions.Pairwise (fun a b => ¬(a.club = b.club ∧ a.datetime.raw = b.datetime.raw))

/-- A stored session at club `ClubA`, used to exhibit a duplicate. -/
def fixDupExisting : Session :=
  { id := "sid0", datetime := toISO 3600000000, durationMinutes := 60,
    club := "ClubA", level := "moyen", capacity := 4,
    pricePerParticipant := 500, organizer := "olga",
    participants := [], guests := 0, followers := [],
    messages := [], createdAt := 0, reminderSent := false }

/-- A create payload whose (club, datetime) duplicates
`fixDupExisting` while every other field differs. -/
def fixDupPayload : SessionPayload :=
  { datetime := toISO 3600000000, durationMinutes := 90, club := "ClubA",
    level := "confirmé", capacity := 6, pricePerParticipant := 700 }

/-- The session the current `handleCreateSession` stores for
`fixDupPayload`. -/
def fixDupCreated : Session :=
  { id := "sid9", datetime := toISO 3600000000, durationMinutes := 90,
    club := "ClubA", level := "confirmé", capacity := 6,
    pricePerParticipant := 700, organizer := "pierre",
    participants := [], guests := 0, followers := [],
    messages := [], createdAt := 42, reminderSent := false }

/-- The scenario session: organizer `olga`, no participants yet, one
follower, start still in the future at `fixScnNow`. -/
def fixScnSession (cap : Int) : Session :=
  { id := "s1", datetime := toISO 10000000, durationMinutes := 90,
    club := "ClubA", level := "moyen", capacity := cap,
    pricePerParticipant := 0, organizer := "olga",
    participants := [], guests := 0, followers := ["fred"],
    messages := [], createdAt := 0, reminderSent := false }

/-- A reference time before the scenario session starts. -/
def fixScnNow : Int := 9000000

/-- Three users, each with one push subscription. -/
def fixScnUsers : List User :=
  [⟨"olga", "olga", "h1", 0, [⟨"ep-olga", "k1", none, 0, none⟩]⟩,
   ⟨"alice", "alice", "h2", 0, [⟨"ep-alice", "k2", none, 0, none⟩]⟩,
   ⟨"dave", "dave", "h3", 0, [⟨"ep-dave", "k3", none, 0, none⟩]⟩]

/-- A session whose end falls exactly on the reference time 60000:
`datetime + durationMinutes * 60000 = 0 + 1 * 60000`. -/
def fixBoundary : Session :=
  { id := "b1", datetime := toISO 0, durationMinutes := 1,
    club := "ClubA", level := "moyen", capacity := 4,
    pricePerParticipant := 0, organizer := "olga",
    participants := [], guests := 0, followers := [],
    messages := [], createdAt := 0, reminderSent := false }

/-- A stored session whose datetime string does not parse. -/
def fixBadSession : Session :=
  { id := "sb", datetime := ⟨"not-a-date", none⟩, durationMinutes := 60,
    club := "ClubA", level := "moyen", capacity := 4,
    pricePerParticipant := 0, organizer := "olga",
    participants := ["alice"], guests := 0, followers := [],
    messages := [], createdAt := 0, reminderSent := false }

/-- A session one minute before start, reminder not yet sent. -/
def fixRem : Session :=
  { id := "r1", datetime := toISO 1000000, durationMinutes := 60,
    club := "ClubA", level := "moyen", capacity := 4,
    pricePerParticipant := 0, organizer := "olga",
    participants := [], guests := 0, followers := [],
    messages := [], createdAt := 0, reminderSent := false }

/-- `fixRem` after its reminder fired. -/
def fixRemFlagged : Session := { fixRem with reminderSent := true }

/-- An edit payload moving `fixRem` to a later start time. -/
def fixRemPayload : SessionPayload :=
  { datetime := toISO 5000000, durationMinutes := 60, club := "ClubA",
    level := "moyen", capacity := 4, pricePerParticipant := 0 }

/-- A transport model: the `alice` endpoint is gone (410), the `dave`
endpoint fails transiently (500), everything else delivers. -/
def fixDeliver : String → DeliveryResult := fun e =>
  if e == "ep-alice" then .failed 410
  else if e == "ep-dave" then .failed 500
  else .delivered

/-! ## Helper lemmas -/

/-- Reduction of `joinSession` on a successful lookup. -/
theorem joinSession_eq_found {sessions : List Session} {sid : String}
    {s : Session} (user : String) (now : Int)
    (h : findSession sessions sid = some s) :
    joinSession sessions sid user now
      = joinSessionFound sessions sid user now s := by
  unfold joinSession
  rw [h]

/-- Reduction of `leaveSession` on a successful lookup. -/
theorem leaveSession_eq_found {sessions : List Session} {sid : String}
    {s : Session} (user : String) (now : Int)
    (h : findSession sessions sid = some s) :
    leaveSession sessions sid user now
      = leaveSessionFound sessions sid user now s := by
  unfold leaveSession
  rw [h]

/-- Reduction of `updateParticipants` on a successful lookup. -/
theorem updateParticipants_eq_found {sessions : List Session}
    {sid : String} {s : Session} (user : String) (names : List String)
    (now : Int) (h : findSession sessions sid = some s) :
    updateParticipants sessions sid user names now
      = updateParticipantsFound sessions sid user names now s := by
  unfold updateParticipants
  rw [h]

/-- Reduction of `editSession` on a successful lookup. -/
theorem editSession_eq_found {sessions : List Session} {sid : String}
    {s : Session} (clubs : List String) (user : String)
    (p : SessionPayload) (now : Int)
    (h : findSession sessions sid = some s) :
    editSession clubs sessions user sid p now
      = editSessionFound clubs sessions user sid p now s := by
  unfold editSession
  rw [h]

/-- Reduction of `sendMessage` on a successful lookup. -/
theorem sendMessage_eq_found {sessions : List Session} {sid : String}
    {s : Session} (user : String) (text : String) (now : Int)
    (msgId : String) (ts : Int)
    (h : findSession sessions sid = some s) :
    sendMessage sessions sid user text now msgId ts
      = sendMessageFound sessions sid user text now msgId ts s := by
  unfold sendMessage
  rw [h]

/-- The session returned by a successful lookup belongs to the list. -/
theorem findSession_mem {sessions : List Session} {sid : String}
    {s : Session} (h : findSession sessions sid = some s) : s ∈ sessions :=
  List.mem_of_find?_eq_some h

/-- Every element after the in-place replacement is either an original
element or the replacement itself. -/
theorem mem_replaceFirstById {l : List Session} {sid : String}
    {s' : Session} : ∀ x ∈ replaceFirstById l sid s', x ∈ l ∨ x = s' := by
  induction l with
  | nil => simp [replaceFirstById]
  | cons a rest ih =>
    intro x hx
    by_cases ha : a.id == sid
    · simp only [replaceFirstById, if_pos ha] at hx
      rcases List.mem_cons.mp hx with h | h
      · right; exact h
      · left; exact List.mem_cons_of_mem _ h
    · simp only [replaceFirstById, if_neg ha] at hx
      rcases List.mem_cons.mp hx with h | h
      · left; exact h ▸ List.mem_cons_self ..
      · rcases ih x h with h' | h'
        · left; exact List.mem_cons_of_mem _ h'
        · right; exact h'

/-- The validated participant list has one entry per submitted name. -/
theorem validateParticipantNames_length {organizer : String}
    {names ps : List String}
    (h : validateParticipantNames organizer names = .ok ps) :
    ps.length = names.length := by
  induction names generalizing ps with
  | nil =>
    unfold validateParticipantNames at h
    injection h with h
    rw [← h]
  | cons n rest ih =>
    unfold validateParticipantNames at h
    split_ifs at h with h1 h2
    cases hrec : validateParticipantNames organizer rest with
    | error e => rw [hrec] at h; exact Except.noConfusion h
    | ok rest' =>
      rw [hrec] at h
      injection h with h
      rw [← h]
      simp [ih hrec]

/-- Inversion of a successful join: the capacity guard held and the
stored list replaces the found session with the appended one. -/
theorem joinSessionFound_ok {sessions : List Session} {sid user : String}
    {now : Int} {s : Session} {r : List Session × Session × List Event}
    (h : joinSessionFound sessions sid user now s = .ok r) :
    (s.participants.length : Int) + 1 < s.capacity ∧
    r.1 = replaceFirstById sessions sid
      { s with participants := s.participants ++ [user] } := by
  unfold joinSessionFound at h
  split_ifs at h with h1 h2 h3 h4
  injection h with h
  exact ⟨not_le.mp h4, by rw [← h]⟩

/-- Inversion of a successful leave: the stored list replaces the found
session with the filtered one. -/
theorem leaveSessionFound_ok {sessions : List Session} {sid user : String}
    {now : Int} {s : Session} {r : List Session × Session × List Event}
    (h : leaveSessionFound sessions sid user now s = .ok r) :
    r.1 = replaceFirstById sessions sid
      { s with participants := s.participants.filter (fun n => n ≠ user) } := by
  unfold leaveSessionFound at h
  split_ifs at h with h1 h2 h3 h4
  all_goals injection h with h
  all_goals rw [← h]

/-- Inversion of a successful bulk replacement: the names validated,
the capacity guard held and the stored list replaces the found
session. -/
theorem updateParticipantsFound_ok {sessions : List Session}
    {sid user : String} {names : List String} {now : Int} {s : Session}
    {r : List Session × Session × List Event}
    (h : updateParticipantsFound sessions sid user names now s = .ok r) :
    ∃ ps, validateParticipantNames s.organizer names = .ok ps ∧
      (ps.length : Int) + 1 ≤ s.capacity ∧
      r.1 = replaceFirstById sessions sid { s with participants := ps } := by
  unfold updateParticipantsFound at h
  split_ifs at h with h1 h2
  cases hv : validateParticipantNames s.organizer names with
  | error e =>
    rw [hv] at h
    exact Except.noConfusion (show Except.error e = Except.ok r from h)
  | ok ps =>
    rw [hv] at h
    have h' : updateParticipantsValidated sessions sid s ps = .ok r := h
    unfold updateParticipantsValidated at h'
    split_ifs at h' with h3
    all_goals injection h' with h'
    all_goals exact ⟨ps, rfl, not_lt.mp h3, by rw [← h']⟩

/-- Wrapper inversion for `joinSession`. -/
theorem joinSession_ok {sessions : List Session} {sid user : String}
    {now : Int} {r : List Session × Session × List Event}
    (h : joinSession sessions sid user now = .ok r) :
    ∃ s, findSession sessions sid = some s ∧
      joinSessionFound sessions sid user now s = .ok r := by
  unfold joinSession at h
  cases hf : findSession sessions sid with
  | none => rw [hf] at h; exact Except.noConfusion h
  | some s => rw [hf] at h; exact ⟨s, rfl, h⟩

/-- Wrapper inversion for `leaveSession`. -/
theorem leaveSession_ok {sessions : List Session} {sid user : String}
    {now : Int} {r : List Session × Session × List Event}
    (h : leaveSession sessions sid user now = .ok r) :
    ∃ s, findSession sessions sid = some s ∧
      leaveSessionFound sessions sid user now s = .ok r := by
  unfold leaveSession at h
  cases hf : findSession sessions sid with
  | none => rw [hf] at h; exact Except.noConfusion h
  | some s => rw [hf] at h; exact ⟨s, rfl, h⟩

/-- Wrapper inversion for `updateParticipants`. -/
theorem updateParticipants_ok {sessions : List Session}
    {sid user : String} {names : List String} {now : Int}
    {r : List Session × Session × List Event}
    (h : updateParticipants sessions sid user names now = .ok r) :
    ∃ s, findSession sessions sid = some s ∧
      updateParticipantsFound sessions sid user names now s = .ok r := by
  unfold updateParticipants at h
  cases hf : findSession sessions sid with
  | none => rw [hf] at h; exact Except.noConfusion h
  | some s => rw [hf] at h; exact ⟨s, rfl, h⟩

/-- Replacing a session by one that satisfies the capacity bound keeps
the whole collection within bounds. -/
theorem capacityInv_replaceFirstById {l : List Session}
    (hinv : capacityInv l) {s' : Session} (sid : String)
    (hs' : (s'.participants.length : Int) + 1 ≤ s'.capacity) :
    capacityInv (replaceFirstById l sid s') := by
  intro x hx
  rcases mem_replaceFirstById x hx with h | h
  · exact hinv x h
  · rw [h]; exact hs'

/-- A successful join, leave or bulk replacement keeps every session
within its capacity. -/
theorem applyOp_ok_capacityInv {sessions l : List Session}
    {op : SessionOp} (h : applyOp sessions op = .ok l)
    (hinv : capacityInv sessions) : capacityInv l := by
  cases op with
  | join sid user now =>
    have h' : (joinSession sessions sid user now).map (fun r => r.1)
        = Except.ok l := h
    cases hj : joinSession sessions sid user now with
    | error e =>
      rw [hj] at h'
      exact Except.noConfusion (show Except.error e = Except.ok l from h')
    | ok r =>
      rw [hj] at h'
      have h'' : Except.ok r.1 = Except.ok l := h'
      injection h'' with h
      obtain ⟨s, hf, hjf⟩ := joinSession_ok hj
      obtain ⟨hlt, hr⟩ := joinSessionFound_ok hjf
      rw [← h, hr]
      refine capacityInv_replaceFirstById hinv sid ?_
      simp only [List.length_append, List.length_cons, List.length_nil]
      push_cast
      omega
  | leave sid user now =>
    have h' : (leaveSession sessions sid user now).map (fun r => r.1)
        = Except.ok l := h
    cases hj : leaveSession sessions sid user now with
    | error e =>
      rw [hj] at h'
      exact Except.noConfusion (show Except.error e = Except.ok l from h')
    | ok r =>
      rw [hj] at h'
      have h'' : Except.ok r.1 = Except.ok l := h'
      injection h'' with h
      obtain ⟨s, hf, hjf⟩ := leaveSession_ok hj
      have hr := leaveSessionFound_ok hjf
      rw [← h, hr]
      refine capacityInv_replaceFirstById hinv sid ?_
      have hle : (s.participants.filter (fun n => n ≠ user)).length
          ≤ s.participants.length := List.length_filter_le _ _
      have hs := hinv s (findSession_mem hf)
      simp only at hs ⊢
      omega
  | updateParts sid actor names now =>
    have h' : (updateParticipants sessions sid actor names now).map (fun r => r.1)
        = Except.ok l := h
    cases hj : updateParticipants sessions sid actor names now with
    | error e =>
      rw [hj] at h'
      exact Except.noConfusion (show Except.error e = Except.ok l from h')
    | ok r =>
      rw [hj] at h'
      have h'' : Except.ok r.1 = Except.ok l := h'
      injection h'' with h
      obtain ⟨s, hf, hjf⟩ := updateParticipants_ok hj
      obtain ⟨ps, hv, hle, hr⟩ := updateParticipantsFound_ok hjf
      rw [← h, hr]
      exact capacityInv_replaceFirstById hinv sid hle

/-- Sequences of operations preserve the capacity invariant; rejected
operations leave the collection untouched. -/
theorem runOps_capacityInv : ∀ (ops : List SessionOp)
    (sessions : List Session), capacityInv sessions →
    capacityInv (runOps sessions ops) := by
  intro ops
  induction ops with
  | nil => intro sessions hinv; exact hinv
  | cons op ops ih =>
    intro sessions hinv
    unfold runOps
    cases hap : applyOp sessions op with
    | ok l => exact ih l (applyOp_ok_capacityInv hap hinv)
    | error e => exact ih sessions hinv

/-- One scan pass over a cons cell, unfolded. -/
theorem checkReminders_cons (s : Session) (l : List Session) (now : Int) :
    checkUpcomingSessionReminders (s :: l) now
      = ((reminderScanStep now s).1 ::
           (checkUpcomingSessionReminders l now).1,
         (reminderScanStep now s).2 ++
           (checkUpcomingSessionReminders l now).2) := rfl

/-- A session already flagged is skipped unchanged. -/
theorem reminderScanStep_sent {now : Int} {s : Session}
    (h : s.reminderSent = true) : reminderScanStep now s = (s, []) := by
  unfold reminderScanStep
  rw [if_pos h]

/-- A not-yet-flagged session inside the lead window fires: the flag is
set and one reminder dispatch is emitted. -/
theorem reminderScanStep_fires {now : Int} {s : Session} {start : Int}
    (hsent : s.reminderSent = false) (hparse : s.datetime.parsed = some start)
    (h1 : now < start) (h2 : start - now ≤ reminderWindowMs) :
    reminderScanStep now s
      = ({ s with reminderSent := true }, [Event.reminder s.id]) := by
  have hst : sessionHasStarted s now = false := by
    simp only [sessionHasStarted, hparse]
    simp
    omega
  unfold reminderScanStep
  rw [if_neg (by simp [hsent])]
  rw [if_neg (by simp [hst])]
  rw [hparse]
  show reminderWindowFire now s start = _
  unfold reminderWindowFire
  rw [if_pos ⟨by omega, h2⟩]

/-- The scan step never changes a session's id. -/
theorem reminderScanStep_id (now : Int) (s : Session) :
    (reminderScanStep now s).1.id = s.id := by
  unfold reminderScanStep reminderWindowFire
  repeat' split
  all_goals rfl

/-- Each step emits either nothing or exactly one reminder dispatch for
its own session id. -/
theorem reminderScanStep_events (now : Int) (s : Session) :
    (reminderScanStep now s).2 = [] ∨
    (reminderScanStep now s).2 = [Event.reminder s.id] := by
  unfold reminderScanStep reminderWindowFire
  repeat' split
  all_goals simp

/-- Counting reminder dispatches distributes over concatenation. -/
theorem remindersFor_append (e₁ e₂ : List Event) (i : String) :
    remindersFor (e₁ ++ e₂) i = remindersFor e₁ i + remindersFor e₂ i := by
  unfold remindersFor
  exact List.countP_append _ _ _

/-- A scan over a list whose id-`i` sessions are all flagged emits no
reminder for `i` and keeps them flagged. -/
theorem scan_zero {l : List Session} {i : String} (now : Int)
    (h : ∀ x ∈ l, x.id = i → x.reminderSent = true) :
    remindersFor (checkUpcomingSessionReminders l now).2 i = 0 ∧
    (∀ x ∈ (checkUpcomingSessionReminders l now).1, x.id = i →
      x.reminderSent = true) := by
  induction l with
  | nil => exact ⟨rfl, by simp [checkUpcomingSessionReminders]⟩
  | cons s rest ih =>
    have hrest := ih (fun x hx => h x (List.mem_cons_of_mem _ hx))
    rw [checkReminders_cons]
    constructor
    · rw [remindersFor_append]
      rw [hrest.1]
      by_cases hid : s.id = i
      · rw [reminderScanStep_sent (h s (List.mem_cons_self ..) hid)]
        rfl
      · rcases reminderScanStep_events now s with he | he
        · rw [he]; rfl
        · rw [he]
          simp [remindersFor, hid]
    · intro x hx hxid
      rcases List.mem_cons.mp hx with hx | hx
      · by_cases hid : s.id = i
        · have hsent := h s (List.mem_cons_self ..) hid
          rw [reminderScanStep_sent hsent] at hx
          rw [hx]
          exact hsent
        · exact absurd (hx ▸ hxid : (reminderScanStep now s).1.id = i)
            (by rw [reminderScanStep_id]; exact hid)
      · exact hrest.2 x hx hxid

/-- Repeated scans over a list whose id-`i` sessions are all flagged
never emit a reminder for `i`. -/
theorem scanSeq_zero {l : List Session} {i : String}
    (h : ∀ x ∈ l, x.id = i → x.reminderSent = true) :
    ∀ ts, remindersFor (reminderScanSeq l ts).2 i = 0 := by
  intro ts
  induction ts generalizing l with
  | nil => rfl
  | cons t ts ih =>
    unfold reminderScanSeq
    rw [remindersFor_append]
    obtain ⟨h0, hkeep⟩ := scan_zero t h
    rw [h0, ih hkeep]

/-- A scan over a list with no id-`i` session emits no reminder for `i`
and introduces none. -/
theorem scan_no_id {l : List Session} {i : String} (now : Int)
    (h : l.countP (fun x => x.id == i) = 0) :
    remindersFor (checkUpcomingSessionReminders l now).2 i = 0 ∧
    (checkUpcomingSessionReminders l now).1.countP
      (fun x => x.id == i) = 0 := by
  induction l with
  | nil => exact ⟨rfl, rfl⟩
  | cons s rest ih =>
    rw [List.countP_cons] at h
    have hid : ¬ s.id = i := by
      intro hi
      simp [hi] at h
    have hrest := ih (by omega)
    rw [checkReminders_cons]
    constructor
    · rw [remindersFor_append, hrest.1]
      rcases reminderScanStep_events now s with he | he
      · rw [he]; rfl
      · rw [he]; simp [remindersFor, hid]
    · rw [List.countP_cons, hrest.2]
      simp [reminderScanStep_id, hid]

/-- A scan over a list holding exactly one session with id `i` — not
yet reminded, not started, inside the lead window — emits exactly one
reminder for `i` and leaves every id-`i` session flagged. -/
theorem scan_fires_once : ∀ (l : List Session) (i : String) (s : Session)
    (now start : Int),
    l.countP (fun x => x.id == i) = 1 → s ∈ l → s.id = i →
    s.reminderSent = false → s.datetime.parsed = some start →
    now < start → start - now ≤ reminderWindowMs →
    remindersFor (checkUpcomingSessionReminders l now).2 i = 1 ∧
    (∀ x ∈ (checkUpcomingSessionReminders l now).1, x.id = i →
      x.reminderSent = true) := by
  intro l
  induction l with
  | nil => intro i s now start _ hmem; cases hmem
  | cons a rest ih =>
    intro i s now start huniq hmem hid hsent hparse h1 h2
    rw [List.countP_cons] at huniq
    by_cases hai : a.id = i
    · have htail : rest.countP (fun x => x.id == i) = 0 := by
        rw [if_pos (show (a.id == i) = true by simp [hai])] at huniq
        omega
      obtain rfl : s = a := by
        rcases List.mem_cons.mp hmem with h | h
        · exact h
        · exfalso
          have hpos : 0 < rest.countP (fun x => x.id == i) :=
            List.countP_pos_iff.mpr ⟨s, h, by simp [hid]⟩
          omega
      have hfire := reminderScanStep_fires hsent hparse h1 h2
      have hzero := scan_no_id (l := rest) now htail
      rw [checkReminders_cons]
      constructor
      · rw [remindersFor_append, hzero.1, hfire]
        simp [remindersFor, hid]
      · intro x hx hxid
        rcases List.mem_cons.mp hx with hx | hx
        · rw [hfire] at hx
          rw [hx]
        · exfalso
          have hpos : 0 < (checkUpcomingSessionReminders rest now).1.countP
              (fun x => x.id == i) :=
            List.countP_pos_iff.mpr ⟨x, hx, by simp [hxid]⟩
          omega
    · have huniq' : rest.countP (fun x => x.id == i) = 1 := by
        rw [if_neg (show ¬(a.id == i) = true by simp [hai])] at huniq
        omega
      have hmem' : s ∈ rest := by
        rcases List.mem_cons.mp hmem with h | h
        · exact absurd (h ▸ hid) hai
        · exact h
      have hrec := ih i s now start huniq' hmem' hid hsent hparse h1 h2
      rw [checkReminders_cons]
      constructor
      · rw [remindersFor_append, hrec.1]
        rcases reminderScanStep_events now a with he | he
        · rw [he]; rfl
        · rw [he]; simp [remindersFor, hai]
      · intro x hx hxid
        rcases List.mem_cons.mp hx with hx | hx
        · exact absurd (hx ▸ hxid : (reminderScanStep now a).1.id = i)
            (by rw [reminderScanStep_id]; exact hai)
        · exact hrec.2 x hx hxid

/-- In-place replacement by a session with the replaced id keeps the
per-id element counts. -/
theorem countP_replaceFirstById {s' : Session} {sid : String}
    (h : s'.id = sid) (i : String) : ∀ l : List Session,
    (replaceFirstById l sid s').countP (fun x => x.id == i)
      = l.countP (fun x => x.id == i) := by
  intro l
  induction l with
  | nil => rfl
  | cons a rest ih =>
    by_cases ha : a.id == sid
    · simp only [replaceFirstById, if_pos ha]
      rw [List.countP_cons, List.countP_cons]
      have heq : (s'.id == i) = (a.id == i) := by
        have haeq : a.id = sid := by simpa using ha
        rw [h, haeq]
      rw [heq]
    · simp only [replaceFirstById, if_neg ha]
      rw [List.countP_cons, List.countP_cons, ih]

/-- When the lookup succeeds, the replacement is present in the
replaced list. -/
theorem mem_replaceFirstById_self {sid : String} {s₀ : Session}
    (s' : Session) : ∀ {l : List Session},
    findSession l sid = some s₀ → s' ∈ replaceFirstById l sid s' := by
  intro l
  induction l with
  | nil => intro h; exact absurd h (by simp [findSession])
  | cons a rest ih =>
    intro h
    by_cases ha : a.id == sid
    · simp only [replaceFirstById]
      rw [if_pos ha]
      exact List.mem_cons_self ..
    · simp only [replaceFirstById, if_neg ha]
      refine List.mem_cons_of_mem _ (ih ?_)
      unfold findSession at h ⊢
      rwa [List.find?_cons_of_neg _ (by simpa using ha)] at h

/-- Inversion of a successful edit: the datetime parsed, the stored
session is updated via `editedSessionRecord` and replaced in place. -/
theorem editSessionFound_ok {clubs : List String} {sessions : List Session}
    {user sid : String} {p : SessionPayload} {now : Int} {s : Session}
    {l' : List Session} {s'' : Session}
    (h : editSessionFound clubs sessions user sid p now s = .ok (l', s'')) :
    ∃ t, p.datetime.parsed = some t ∧ s'' = editedSessionRecord s p t ∧
      l' = replaceFirstById sessions sid s'' := by
  unfold editSessionFound at h
  split_ifs at h with h1 h2
  cases hpt : p.datetime.parsed with
  | none =>
    rw [hpt] at h
    exact Except.noConfusion
      (show Except.error ApiErr.invalidDatetime = Except.ok (l', s'') from h)
  | some t =>
    rw [hpt] at h
    have h' : editSessionChecked clubs sessions sid p now s t
        = .ok (l', s'') := h
    unfold editSessionChecked at h'
    split_ifs at h' with h3 h4 h5 h6 h7 h8 h9 h10
    injection h' with h'
    injection h' with hl hs
    exact ⟨t, rfl, hs.symm, by rw [← hl, hs]⟩

/-- A changed datetime resets the reminder flag of the edited record;
id and capacity bookkeeping are untouched. -/
theorem editedSessionRecord_reset {s : Session} {p : SessionPayload}
    {t : Int} (hne : (toISO t).raw ≠ s.datetime.raw) :
    (editedSessionRecord s p t).reminderSent = false ∧
    (editedSessionRecord s p t).id = s.id ∧
    (editedSessionRecord s p t).datetime = toISO t := by
  refine ⟨?_, rfl, rfl⟩
  simp [editedSessionRecord, if_pos hne]

/-- Every endpoint in the failed set had a prunable delivery failure
(delivery outcomes are a function of the endpoint). -/
theorem mem_failedEndpointsOf_prunable {users : List User}
    {deliver : String → DeliveryResult} {targetUser : Option String}
    {excludedUsers : Option (List String)} {e : String}
    (h : e ∈ failedEndpointsOf users deliver targetUser excludedUsers) :
    prunableFailure (deliver e) = true := by
  unfold failedEndpointsOf at h
  obtain ⟨sub, hsub, he⟩ := List.mem_map.mp h
  obtain ⟨hmem, hp⟩ := List.mem_filter.mp hsub
  rw [← he]
  simpa using hp

/-- A candidate subscription with a prunable failure contributes its
endpoint to the failed set. -/
theorem prunable_mem_failedEndpointsOf {users : List User}
    {deliver : String → DeliveryResult} {targetUser : Option String}
    {excludedUsers : Option (List String)} {info : SubscriptionInfo}
    (hmem : info ∈ getAllSubscriptions users targetUser excludedUsers)
    (hp : prunableFailure (deliver info.endpoint) = true) :
    info.endpoint ∈ failedEndpointsOf users deliver targetUser
      excludedUsers := by
  unfold failedEndpointsOf
  exact List.mem_map.mpr ⟨info, List.mem_filter.mpr ⟨hmem, by simpa using hp⟩, rfl⟩

/-- Unfolding `removeSessionById`: a successful removal splits the list
at the first session carrying the id. -/
theorem removeSessionById_eq_some {l : List Session} {sid : String}
    {target : Session} {remaining : List Session}
    (h : removeSessionById l sid = some (target, remaining)) :
    ∃ pre post, l = pre ++ target :: post ∧ remaining = pre ++ post ∧
      target.id = sid ∧ ∀ x ∈ pre, x.id ≠ sid := by
  induction l generalizing remaining with
  | nil => simp [removeSessionById] at h
  | cons s rest ih =>
    by_cases hs : s.id == sid
    · simp only [removeSessionById, if_pos hs] at h
      obtain ⟨h1, h2⟩ := by exact Prod.mk.injEq .. ▸ (Option.some.injEq .. ▸ h)
      exact ⟨[], rest, by simp [← h1, h2], by simp [h2], by
        simpa using (beq_iff_eq ..).mp (h1 ▸ hs), by simp⟩
    · simp only [removeSessionById, if_neg hs] at h
      cases hrec : removeSessionById rest sid with
      | none => rw [hrec] at h; simp at h
      | some p =>
        obtain ⟨t, l'⟩ := p
        rw [hrec] at h
        simp only [Option.some.injEq, Prod.mk.injEq] at h
        obtain ⟨ht, hl⟩ := h
        obtain ⟨pre, post, hsplit, hrem, hid, hpre⟩ := ih (ht ▸ hrec)
        refine ⟨s :: pre, post, by simp [hsplit], by simp [← hl, hrem], hid, ?_⟩
        intro x hx
        rcases List.mem_cons.mp hx with hx | hx
        · subst hx; simpa using hs
        · exact hpre x hx

/-! ## Claim theorems -/

/-- C7 counterexample: at the exact instant `now = datetime +
durationMinutes` a session is in the claim's expired state
(`now >= datetime + duration`), yet the listing's purge retains it —
the code's `sessionHasExpired` uses strict `>`.  Conversely, a session
whose datetime does not parse is not in the claim's expired state (no
instant to compare), yet the purge removes it. -/
theorem purge_boundary_counterexample :
    fixBoundary.datetime.parsed = some 0 ∧
    (60000 : Int) ≥ 0 + fixBoundary.durationMinutes * 60000 ∧
    listSessionsStored [fixBoundary] 60000 = [fixBoundary] ∧
    fixBadSession.datetime.parsed = none ∧
    listSessionsStored [fixBadSession] 60000 = [] :=
  ⟨rfl, by decide, rfl, rfl, rfl⟩

/-- C7 (amended): after a session-listing operation, a stored session
is retained in the persisted collection exactly when its datetime
parses to an instant whose end has not strictly passed
(`now <= start + durationMinutes * 60000`); hence every session
strictly past its end, and every session with an unparsable datetime,
is removed, while a session exactly at `now = datetime + duration` —
in the claim's expired state — is retained.  Nothing new is introduced
and the retained sessions keep their stored order. -/
theorem purge_on_list_amended (sessions : List Session) (now : Int) :
    (∀ s ∈ listSessionsStored sessions now, s ∈ sessions) ∧
    (listSessionsStored sessions now).Sublist sessions ∧
    (∀ s ∈ sessions,
      (s ∈ listSessionsStored sessions now ↔
        ∃ start, s.datetime.parsed = some start ∧
          now ≤ start + s.durationMinutes * 60000)) := by
  refine ⟨?_, List.filter_sublist sessions, ?_⟩
  · intro s hs
    exact (List.mem_filter.mp hs).1
  · intro s hs
    constructor
    · intro hmem
      have hexp := (List.mem_filter.mp hmem).2
      cases hp : s.datetime.parsed with
      | none => exact absurd hexp (by simp [sessionHasExpired, hp])
      | some start =>
        refine ⟨start, rfl, ?_⟩
        simp [sessionHasExpired, hp] at hexp
        omega
    · rintro ⟨start, hp, hle⟩
      refine List.mem_filter.mpr ⟨hs, ?_⟩
      simp [sessionHasExpired, hp]
      omega

/-- C7 witness: the boundary session is retained, the unparsable one
removed. -/
theorem purge_on_list_amended_witness :
    fixBoundary ∈ listSessionsStored [fixBoundary] 60000 ∧
    fixBadSession ∉ listSessionsStored [fixBadSession] 60000 := by
  have h1 := (purge_on_list_amended [fixBoundary] 60000).2.2 fixBoundary
    (List.mem_singleton.mpr rfl)
  have h2 := (purge_on_list_amended [fixBadSession] 60000).2.2 fixBadSession
    (List.mem_singleton.mpr rfl)
  constructor
  · exact h1.mpr ⟨0, rfl, by decide⟩
  · intro hmem
    obtain ⟨start, hp, _⟩ := h2.mp hmem
    exact Option.noConfusion hp

/-- C10 (confirmed): a successful `handleDeleteSession` leaves the
Users collection (hence every push subscription) and the Clubs list
untouched, emits no notification dispatch, and removes exactly the
first stored session carrying the targeted id (which belongs to the
requesting organizer), keeping all other sessions in order. -/
theorem delete_session_frame (st : ServerState) (sid user : String)
    (st' : ServerState) (evs : List Event)
    (h : handleDeleteSession st sid user = .ok (st', evs)) :
    st'.users = st.users ∧ st'.clubs = st.clubs ∧ evs = [] ∧
    ∃ pre target post,
      st.sessions = pre ++ target :: post ∧
      st'.sessions = pre ++ post ∧
      target.id = sid ∧ target.organizer = user ∧
      ∀ x ∈ pre, x.id ≠ sid := by
  unfold handleDeleteSession at h
  cases hrem : removeSessionById st.sessions sid with
  | none => rw [hrem] at h; simp at h
  | some p =>
    obtain ⟨target, remaining⟩ := p
    rw [hrem] at h
    by_cases horg : target.organizer ≠ user
    · simp [horg] at h
    · simp only [horg, if_false, reduceIte] at h
      push_neg at horg
      obtain ⟨hst, hevs⟩ : ({ st with sessions := remaining } : ServerState) = st' ∧ [] = evs := by
        simpa [Except.ok.injEq, Prod.mk.injEq] using h
      obtain ⟨pre, post, hsplit, hrm, hid, hpre⟩ := removeSessionById_eq_some hrem
      exact ⟨by simp [← hst], by simp [← hst], hevs.symm,
        pre, target, post, hsplit, by simp [← hst, hrm], hid, horg, hpre⟩

/-- C10 witness: deleting the only session of a concrete state. -/
theorem delete_session_frame_witness :
    fixDeleteAfter.users = fixDeleteBefore.users ∧
    fixDeleteAfter.clubs = fixDeleteBefore.clubs ∧ ([] : List Event) = [] ∧
    ∃ pre target post,
      fixDeleteBefore.sessions = pre ++ target :: post ∧
      fixDeleteAfter.sessions = pre ++ post ∧
      target.id = "sid1" ∧ target.organizer = "olga" ∧
      ∀ x ∈ pre, x.id ≠ "sid1" :=
  delete_session_frame fixDeleteBefore "sid1" "olga" fixDeleteAfter [] (by rfl)

/-- C6 (confirmed): with an empty cache, a primary file holding invalid
JSON and a valid backup holding `xs`, `read()` returns the backup's
content, restores the primary from it and caches it; the immediately
following `read()` returns the same content from the cache with no disk
access and leaves the store untouched. -/
theorem backup_recovery_round_trip {α : Type} (xs seed : List α) :
    (readFile (⟨some .malformed, some (.arr xs), none⟩ : Store α) seed).result
        = .ok xs ∧
    (readFile (⟨some .malformed, some (.arr xs), none⟩ : Store α) seed).store
        = ⟨some (.arr xs), some (.arr xs), some xs⟩ ∧
    (readFile (readFile (⟨some .malformed, some (.arr xs), none⟩ : Store α) seed).store
        seed).result = .ok xs ∧
    (readFile (readFile (⟨some .malformed, some (.arr xs), none⟩ : Store α) seed).store
        seed).touchedDisk = false ∧
    (readFile (readFile (⟨some .malformed, some (.arr xs), none⟩ : Store α) seed).store
        seed).store
      = (readFile (⟨some .malformed, some (.arr xs), none⟩ : Store α) seed).store :=
  ⟨rfl, rfl, rfl, rfl, rfl⟩

/-- C5 counterexample: with the primary file absent and the backup
present but unparsable — "both primary and backup invalid or absent" in
the claim's words — `read()` does not report a fatal corruption: it
seeds and returns the empty list, fabricating empty data although a
broken backup exists. -/
theorem storage_corruption_counterexample :
    (readFile (⟨none, some .malformed, none⟩ : Store Nat) []).result = .ok [] ∧
    (readFile (⟨none, some .malformed, none⟩ : Store Nat) []).result ≠ .error () :=
  ⟨rfl, fun h => Except.noConfusion h⟩

/-- C5 (amended): with an empty cache, whenever the primary file is
present but invalid (unparsable or non-array) and the backup is either
absent or also invalid, `read()` reports the fatal corruption error and
leaves the store untouched — it does not fabricate data.  When the
primary file is absent, however, `read()` seeds and returns the empty
collection regardless of the backup's state. -/
theorem storage_corruption_amended {α : Type} (st : Store α) (seed : List α)
    (c : FileContent α)
    (hcache : st.cache = none)
    (hprimary : st.primary = some c)
    (hbad : parseContent c seed = none)
    (hbackup : ∀ b, st.backup = some b → parseContent b seed = none) :
    ((readFile st seed).result = .error () ∧ (readFile st seed).store = st) ∧
    (∀ st₂ : Store α, st₂.cache = none → st₂.primary = none →
      (readFile st₂ seed).result = .ok seed) := by
  constructor
  · unfold readFile
    simp only [hcache, hprimary, hbad]
    cases hb : st.backup with
    | none => simp
    | some b => simp [hbackup b hb]
  · intro st₂ hc hp
    unfold readFile
    simp [hc, hp]

/-- C5 witness: a malformed primary next to a non-array backup is
reported as fatal corruption. -/
theorem storage_corruption_amended_witness :
    ((readFile (⟨some .malformed, some .nonArray, none⟩ : Store Nat) []).result
        = .error () ∧
      (readFile (⟨some .malformed, some .nonArray, none⟩ : Store Nat) []).store
        = ⟨some .malformed, some .nonArray, none⟩) ∧
    (∀ st₂ : Store Nat, st₂.cache = none → st₂.primary = none →
      (readFile st₂ []).result = .ok []) :=
  storage_corruption_amended (⟨some .malformed, some .nonArray, none⟩ : Store Nat)
    [] .malformed rfl rfl rfl
    (fun b hb => by cases hb; rfl)

/-- C2 counterexample: against the current `handleCreateSession`, a
create request whose (club, datetime) pair equals that of the stored
session `fixDupExisting` succeeds and appends a second session with the
same pair — it is not rejected and the collection does change. -/
theorem create_session_uniqueness_counterexample :
    createSession ["ClubA"] [fixDupExisting] "pierre" fixDupPayload
        3599999000 "sid9" 42
      = .ok ([fixDupExisting, fixDupCreated], fixDupCreated,
             [Event.newSession "sid9"]) ∧
    fixDupCreated.club = fixDupExisting.club ∧
    fixDupCreated.datetime = fixDupExisting.datetime :=
  ⟨rfl, rfl, rfl⟩

set_option maxHeartbeats 1000000 in
/-- C2 (amended): the uniqueness rejection lives only in the historical
`handleCreateSession` (revision 1.1.1).  There, a create whose
(club, datetime) pair equals a stored session's never succeeds (hence
the collection is left unchanged), and when every earlier validation
passes it fails precisely with the conflict error; consequently
successful historical creates preserve pairwise distinctness of
(club, datetime).  The current handler performs no such check (see the
counterexample). -/
theorem create_session_uniqueness_amended
    (clubs : List String) (sessions : List Session) (organizer : String)
    (p : SessionPayload) (now : Int) (newId : String) (createdAt : Int)
    (t : Int) (ht : p.datetime.parsed = some t)
    (s₀ : Session) (hmem : s₀ ∈ sessions)
    (hclub : s₀.club = jsTrim p.club) (hdt : s₀.datetime.raw = (toISO t).raw) :
    (∀ r, legacyCreateSession clubs sessions organizer p now newId createdAt
        ≠ .ok r) ∧
    (¬ t < now - 5 * 60 * 1000 →
     0 < p.durationMinutes ∧ p.durationMinutes ≤ 300 →
     jsTrim p.club ≠ "" →
     (clubs.length ≠ 0 → clubs.contains (jsTrim p.club) = true) →
     jsTrim p.level ≠ "" →
     allowedLevels.contains (jsTrim p.level) = true →
     1 ≤ p.capacity ∧ p.capacity ≤ 12 →
     ¬ p.pricePerParticipant < 0 →
     legacyCreateSession clubs sessions organizer p now newId createdAt
       = .error .duplicateSession) ∧
    (∀ (clubs' : List String) (sessions' : List Session)
        (organizer' : String) (p' : SessionPayload) (now' : Int)
        (newId' : String) (createdAt' : Int) r,
      legacyCreateSession clubs' sessions' organizer' p' now' newId' createdAt'
          = .ok r →
      distinctClubDatetime sessions' → distinctClubDatetime r.1) := by
  have hany : sessions.any (fun s =>
      s.club == jsTrim p.club && s.datetime.raw == (toISO t).raw) = true := by
    refine List.any_eq_true.mpr ⟨s₀, hmem, ?_⟩
    simp [hclub, hdt]
  refine ⟨?_, ?_, ?_⟩
  · intro r hok
    unfold legacyCreateSession at hok
    rw [ht] at hok
    have hok' : legacyCreateSessionChecked clubs sessions organizer p now
        newId createdAt t = .ok r := hok
    unfold legacyCreateSessionChecked at hok'
    split_ifs at hok' with h1 h2 h3 h4 h5 h6 h7
  · intro g1 g2 g3 g4 g5 g6 g7 g8
    unfold legacyCreateSession
    rw [ht]
    show legacyCreateSessionChecked clubs sessions organizer p now newId
        createdAt t = .error .duplicateSession
    unfold legacyCreateSessionChecked
    rw [if_neg g1]
    rw [if_neg (not_not_intro g2)]
    rw [if_neg (by simpa using g3)]
    rw [if_neg (by
      rintro ⟨hlen, hcon⟩
      exact hcon (by simpa using g4 hlen))]
    rw [if_neg (by
      rintro (h | h)
      · exact g5 (by simpa using h)
      · exact h (by simpa using g6))]
    rw [if_neg (not_not_intro g7)]
    rw [if_neg g8]
    rw [if_pos hany]
  · intro clubs' sessions' organizer' p' now' newId' createdAt' r hok hdist
    unfold legacyCreateSession at hok
    cases hpt : p'.datetime.parsed with
    | none =>
      rw [hpt] at hok
      exact Except.noConfusion
        (show Except.error ApiErr.invalidDatetime = Except.ok r from hok)
    | some t' =>
      rw [hpt] at hok
      have hok' : legacyCreateSessionChecked clubs' sessions' organizer' p'
          now' newId' createdAt' t' = .ok r := hok
      unfold legacyCreateSessionChecked at hok'
      split_ifs at hok' with h1 h2 h3 h4 h5 h6 h7 h8 h9
      injection hok' with hok'
      have hr : r.1 = sessions' ++
          [newSessionRecord organizer' p' t' newId' createdAt'] := by
        rw [← hok']
      have hnodup : ∀ s ∈ sessions',
          ¬(s.club = jsTrim p'.club ∧ s.datetime.raw = (toISO t').raw) := by
        intro s hs hpair
        exact h8 (List.any_eq_true.mpr ⟨s, hs, by simp [hpair.1, hpair.2]⟩)
      rw [hr]
      unfold distinctClubDatetime
      rw [List.pairwise_append]
      refine ⟨hdist, List.pairwise_singleton .., ?_⟩
      intro a ha b hb hpair
      have hb' : b = _ := List.mem_singleton.mp hb
      rw [hb'] at hpair
      exact hnodup a ha (by simpa [newSessionRecord] using hpair)

/-- C2 witness: the historical handler rejects the concrete duplicate
create with the conflict error. -/
theorem create_session_uniqueness_amended_witness :
    legacyCreateSession ["ClubA"] [fixDupExisting] "pierre" fixDupPayload
        3599999000 "sid9" 42 = .error .duplicateSession := by
  have h := create_session_uniqueness_amended ["ClubA"] [fixDupExisting]
    "pierre" fixDupPayload 3599999000 "sid9" 42 3600000000 rfl
    fixDupExisting (by simp) (by decide) rfl
  exact h.2.1 (by decide) (by decide) (by decide) (by decide) (by decide)
    (by decide) (by decide) (by decide)

/-- C3 counterexample: with capacity 2 the organizer already counts
toward the capacity, so after the first user joins the session is full
and the second user's join is rejected with the "session complete"
error — two joins cannot both succeed. -/
theorem scenario_capacity_two_counterexample :
    joinSession [fixScnSession 2] "s1" "alice" fixScnNow
      = .ok ([{ fixScnSession 2 with participants := ["alice"] }],
             { fixScnSession 2 with participants := ["alice"] },
             [Event.participantJoined "s1" "alice"]) ∧
    joinSession [{ fixScnSession 2 with participants := ["alice"] }]
        "s1" "bob" fixScnNow
      = .error .sessionFull :=
  ⟨rfl, rfl⟩

/-- C3 (amended): with capacity 3, two different users' joins succeed
in sequence, a third user's join fails with the "session complete"
error, and the first user's leave succeeds, emitting the
participant-left dispatch and — because the session was full — the
spot-available dispatch, whose recipient resolution (no target, no
exclusion) reaches every stored push subscription. -/
theorem scenario_capacity_amended :
    joinSession [fixScnSession 3] "s1" "alice" fixScnNow
      = .ok ([{ fixScnSession 3 with participants := ["alice"] }],
             { fixScnSession 3 with participants := ["alice"] },
             [Event.participantJoined "s1" "alice"]) ∧
    joinSession [{ fixScnSession 3 with participants := ["alice"] }]
        "s1" "bob" fixScnNow
      = .ok ([{ fixScnSession 3 with participants := ["alice", "bob"] }],
             { fixScnSession 3 with participants := ["alice", "bob"] },
             [Event.participantJoined "s1" "bob"]) ∧
    joinSession [{ fixScnSession 3 with participants := ["alice", "bob"] }]
        "s1" "carol" fixScnNow
      = .error .sessionFull ∧
    leaveSession [{ fixScnSession 3 with participants := ["alice", "bob"] }]
        "s1" "alice" fixScnNow
      = .ok ([{ fixScnSession 3 with participants := ["bob"] }],
             { fixScnSession 3 with participants := ["bob"] },
             [Event.participantLeft "s1" "alice", Event.spotAvailable "s1"]) ∧
    (spotAvailableRecipients fixScnUsers).map (fun i => i.endpoint)
      = ["ep-olga", "ep-alice", "ep-dave"] :=
  ⟨rfl, rfl, rfl, rfl, rfl⟩

/-- C9 counterexample: against a session whose datetime does not parse,
the organizer's leave request is rejected with the organizer-role error
— not with the "session already started" error the claim names for
every such request. -/
theorem invalid_datetime_counterexample :
    fixBadSession.datetime.parsed = none ∧
    leaveSession [fixBadSession] "sb" "olga" 0
      = .error .organizerCannotLeave ∧
    ApiErr.organizerCannotLeave ≠ ApiErr.alreadyStarted :=
  ⟨rfl, rfl, by decide⟩

/-- C9 (amended): a session with an unparsable datetime counts as
started and expired at every reference time; consequently every join
and sendMessage request against it, every leave request by a
non-organizer current participant, and every edit or updateParticipants
request by the organizer is rejected with the "session already started"
error (requests failing the earlier role/membership checks are rejected
with the corresponding role error instead), and the session is removed
from storage by the next listing's purge. -/
theorem invalid_datetime_amended (sessions : List Session) (s : Session)
    (sid : String) (hparse : s.datetime.parsed = none)
    (hfind : findSession sessions sid = some s) :
    (∀ t, sessionHasStarted s t = true ∧ sessionHasExpired s t = true) ∧
    (∀ u now, joinSession sessions sid u now = .error .alreadyStarted) ∧
    (∀ u now, s.organizer ≠ u → u ∈ s.participants →
      leaveSession sessions sid u now = .error .alreadyStarted) ∧
    (∀ names now, updateParticipants sessions sid s.organizer names now
      = .error .alreadyStarted) ∧
    (∀ clubs p now, editSession clubs sessions s.organizer sid p now
      = .error .alreadyStarted) ∧
    (∀ u text now msgId ts, sendMessage sessions sid u text now msgId ts
      = .error .alreadyStarted) ∧
    (∀ now, s ∉ purgeExpiredSessions sessions now) := by
  have hstarted : ∀ t, sessionHasStarted s t = true := by
    intro t
    simp [sessionHasStarted, hparse]
  have hexpired : ∀ t, sessionHasExpired s t = true := by
    intro t
    simp [sessionHasExpired, hparse]
  refine ⟨fun t => ⟨hstarted t, hexpired t⟩, ?_, ?_, ?_, ?_, ?_, ?_⟩
  · intro u now
    rw [joinSession_eq_found u now hfind]
    unfold joinSessionFound
    rw [if_pos (hstarted now)]
  · intro u now horg hpart
    rw [leaveSession_eq_found u now hfind]
    unfold leaveSessionFound
    rw [if_neg (by simpa using horg)]
    rw [if_neg (by simpa using hpart)]
    rw [if_pos (hstarted now)]
  · intro names now
    rw [updateParticipants_eq_found s.organizer names now hfind]
    unfold updateParticipantsFound
    rw [if_neg (not_not_intro rfl)]
    rw [if_pos (hstarted now)]
  · intro clubs p now
    rw [editSession_eq_found clubs s.organizer p now hfind]
    unfold editSessionFound
    rw [if_neg (not_not_intro rfl)]
    rw [if_pos (hstarted now)]
  · intro u text now msgId ts
    rw [sendMessage_eq_found u text now msgId ts hfind]
    unfold sendMessageFound
    rw [if_pos (hstarted now)]
  · intro now hmem
    have := (List.mem_filter.mp hmem).2
    rw [hexpired now] at this
    simp at this

/-- C9 witness: the concrete rejections for `fixBadSession`. -/
theorem invalid_datetime_amended_witness :
    fixBadSession.datetime.parsed = none ∧
    findSession [fixBadSession] "sb" = some fixBadSession ∧
    sessionHasStarted fixBadSession 0 = true ∧
    sessionHasExpired fixBadSession 0 = true ∧
    joinSession [fixBadSession] "sb" "bob" 5 = .error .alreadyStarted ∧
    leaveSession [fixBadSession] "sb" "alice" 5 = .error .alreadyStarted ∧
    updateParticipants [fixBadSession] "sb" "olga" ["bob"] 5
      = .error .alreadyStarted ∧
    sendMessage [fixBadSession] "sb" "alice" "salut" 5 "m1" 6
      = .error .alreadyStarted ∧
    fixBadSession ∉ purgeExpiredSessions [fixBadSession] 5 := by
  have h := invalid_datetime_amended [fixBadSession] fixBadSession "sb"
    rfl rfl
  exact ⟨rfl, rfl, (h.1 0).1, (h.1 0).2, h.2.1 "bob" 5,
    h.2.2.1 "alice" 5 (by decide) (by decide),
    h.2.2.2.1 ["bob"] 5, h.2.2.2.2.2.1 "alice" "salut" 5 "m1" 6,
    h.2.2.2.2.2.2 5⟩

/-- C1 (confirmed): starting from any collection in which every session
satisfies `participants.length + 1 <= capacity`, every sequence of
join, leave and updateParticipants operations — successful ones apply,
rejected ones leave the pre-state untouched — keeps the invariant at
every observable point.  A join against a full session never succeeds,
and is rejected precisely with the "session complete" error when it
passes the earlier started/organizer/membership checks; an
updateParticipants whose new count + 1 exceeds the capacity never
succeeds, and is rejected precisely with the too-many-participants
error when the actor is the organizer, the session has not started and
the names validate. -/
theorem capacity_invariant (sessions : List Session) :
    (∀ ops : List SessionOp, capacityInv sessions →
      capacityInv (runOps sessions ops)) ∧
    (∀ sid user now s, findSession sessions sid = some s →
      (s.participants.length : Int) + 1 ≥ s.capacity →
      (∃ e, joinSession sessions sid user now = .error e) ∧
      (sessionHasStarted s now = false → s.organizer ≠ user →
        user ∉ s.participants →
        joinSession sessions sid user now = .error .sessionFull)) ∧
    (∀ sid user names now s, findSession sessions sid = some s →
      (names.length : Int) + 1 > s.capacity →
      (∀ r, updateParticipants sessions sid user names now ≠ .ok r) ∧
      (user = s.organizer → sessionHasStarted s now = false →
        ∀ ps, validateParticipantNames s.organizer names = .ok ps →
        updateParticipants sessions sid user names now
          = .error .tooManyParticipants)) := by
  refine ⟨fun ops hinv => runOps_capacityInv ops sessions hinv, ?_, ?_⟩
  · intro sid user now s hfind hfull
    constructor
    · rw [joinSession_eq_found user now hfind]
      unfold joinSessionFound
      split_ifs with h1 h2 h3
      · exact ⟨_, rfl⟩
      · exact ⟨_, rfl⟩
      · exact ⟨_, rfl⟩
      · exact ⟨_, rfl⟩
    · intro hstart horg hmem
      rw [joinSession_eq_found user now hfind]
      unfold joinSessionFound
      rw [if_neg (by simp [hstart])]
      rw [if_neg (by simpa using horg)]
      rw [if_neg (by simpa using hmem)]
      rw [if_pos hfull]
  · intro sid user names now s hfind htoomany
    constructor
    · intro r hok
      obtain ⟨s', hf', hupf⟩ := updateParticipants_ok hok
      rw [hfind] at hf'
      injection hf' with hseq
      obtain ⟨ps, hv, hle, hr⟩ := updateParticipantsFound_ok hupf
      have hlen := validateParticipantNames_length hv
      rw [← hseq] at hle
      omega
    · intro huser hstart ps hv
      rw [updateParticipants_eq_found user names now hfind]
      unfold updateParticipantsFound
      rw [if_neg (not_not_intro huser.symm)]
      rw [if_neg (by simp [hstart])]
      rw [hv]
      show updateParticipantsValidated sessions sid s ps
        = .error .tooManyParticipants
      unfold updateParticipantsValidated
      rw [if_pos (by
        have hlen := validateParticipantNames_length hv
        omega)]

/-- C1 witness: the invariant holds along a concrete operation sequence
(second join rejected), and a join against the concrete full session is
rejected with the "session complete" error. -/
theorem capacity_invariant_witness :
    capacityInv (runOps [fixScnSession 2]
      [SessionOp.join "s1" "alice" fixScnNow,
       SessionOp.join "s1" "bob" fixScnNow]) ∧
    joinSession [{ fixScnSession 2 with participants := ["alice"] }]
        "s1" "bob" fixScnNow = .error .sessionFull := by
  refine ⟨(capacity_invariant [fixScnSession 2]).1 _
    (by intro s hs; rw [List.mem_singleton] at hs; subst hs; decide), ?_⟩
  have h := (capacity_invariant
      [{ fixScnSession 2 with participants := ["alice"] }]).2.1
    "s1" "bob" fixScnNow { fixScnSession 2 with participants := ["alice"] }
    rfl (by decide)
  exact h.2 (by decide) (by decide) (by decide)

/-- C4 (confirmed): for a session that has not started, lies within the
45-minute lead window and has not been reminded (and is the only
session carrying its id), the first scan emits exactly one reminder for
it and any number of further scans, at any times, emit none.  A
successful edit that changes the session's stored datetime resets
`reminderSent` to false while preserving the id and the per-id count;
the next scan within the new window then emits exactly one further
reminder and later scans again emit none. -/
theorem reminder_idempotence :
    (∀ (l : List Session) (i : String) (s : Session) (now start : Int),
      l.countP (fun x => x.id == i) = 1 → s ∈ l → s.id = i →
      s.reminderSent = false → s.datetime.parsed = some start →
      now < start → start - now ≤ reminderWindowMs →
      remindersFor (checkUpcomingSessionReminders l now).2 i = 1 ∧
      ∀ ts, remindersFor
        (reminderScanSeq (checkUpcomingSessionReminders l now).1 ts).2 i
          = 0) ∧
    (∀ (clubs : List String) (l : List Session) (user sid : String)
        (p : SessionPayload) (now : Int) (l' : List Session)
        (s'' sOld : Session),
      findSession l sid = some sOld →
      editSession clubs l user sid p now = .ok (l', s'') →
      s''.datetime.raw ≠ sOld.datetime.raw →
      s''.reminderSent = false ∧ s''.id = sOld.id ∧ s'' ∈ l' ∧
      (l.countP (fun x => x.id == sOld.id) = 1 →
        l'.countP (fun x => x.id == sOld.id) = 1)) ∧
    (∀ (clubs : List String) (l : List Session) (user sid : String)
        (p : SessionPayload) (now : Int) (l' : List Session)
        (s'' sOld : Session) (t₂ start' : Int),
      findSession l sid = some sOld →
      editSession clubs l user sid p now = .ok (l', s'') →
      s''.datetime.raw ≠ sOld.datetime.raw →
      l.countP (fun x => x.id == sOld.id) = 1 →
      s''.datetime.parsed = some start' →
      t₂ < start' → start' - t₂ ≤ reminderWindowMs →
      remindersFor (checkUpcomingSessionReminders l' t₂).2 sOld.id = 1 ∧
      ∀ ts, remindersFor
        (reminderScanSeq (checkUpcomingSessionReminders l' t₂).1 ts).2
          sOld.id = 0) := by
  have editFacts : ∀ (clubs : List String) (l : List Session)
      (user sid : String) (p : SessionPayload) (now : Int)
      (l' : List Session) (s'' sOld : Session),
      findSession l sid = some sOld →
      editSession clubs l user sid p now = .ok (l', s'') →
      s''.datetime.raw ≠ sOld.datetime.raw →
      s''.reminderSent = false ∧ s''.id = sOld.id ∧ s'' ∈ l' ∧
      (l.countP (fun x => x.id == sOld.id) = 1 →
        l'.countP (fun x => x.id == sOld.id) = 1) := by
    intro clubs l user sid p now l' s'' sOld hfind hok hne
    rw [editSession_eq_found clubs user p now hfind] at hok
    obtain ⟨t, hpt, hs, hl⟩ := editSessionFound_ok hok
    have hne' : (toISO t).raw ≠ sOld.datetime.raw := by
      rw [hs] at hne
      exact hne
    obtain ⟨hreset, hid', hdt⟩ := editedSessionRecord_reset
      (s := sOld) (p := p) hne'
    have hsid : sOld.id = sid := by
      have := List.find?_some hfind
      simpa using this
    refine ⟨hs ▸ hreset, hs ▸ hid', ?_, ?_⟩
    · rw [hl]
      exact mem_replaceFirstById_self s'' hfind
    · intro hcount
      rw [hl]
      rw [countP_replaceFirstById (by rw [hs, hid', hsid]) sOld.id]
      exact hcount
  have fireOnce := fun l i s now start h1 h2 h3 h4 h5 h6 h7 =>
    scan_fires_once l i s now start h1 h2 h3 h4 h5 h6 h7
  refine ⟨?_, editFacts, ?_⟩
  · intro l i s now start huniq hmem hid hsent hparse h1 h2
    obtain ⟨hone, hflag⟩ :=
      fireOnce l i s now start huniq hmem hid hsent hparse h1 h2
    exact ⟨hone, fun ts => scanSeq_zero hflag ts⟩
  · intro clubs l user sid p now l' s'' sOld t₂ start' hfind hok hne
      hcount hparse' ht1 ht2
    obtain ⟨hreset, hid', hmem', hcount'⟩ :=
      editFacts clubs l user sid p now l' s'' sOld hfind hok hne
    obtain ⟨hone, hflag⟩ := fireOnce l' sOld.id s'' t₂ start'
      (hcount' hcount) hmem' hid' hreset hparse' ht1 ht2
    exact ⟨hone, fun ts => scanSeq_zero hflag ts⟩

/-- C4 witness: the concrete session fires exactly once, repeat scans
stay silent, the concrete edit resets the flag, and one further
reminder fires after the edit. -/
theorem reminder_idempotence_witness :
    remindersFor (checkUpcomingSessionReminders [fixRem] 940000).2 "r1"
      = 1 ∧
    remindersFor (reminderScanSeq
      (checkUpcomingSessionReminders [fixRem] 940000).1
      [941000, 942000]).2 "r1" = 0 ∧
    (editedSessionRecord fixRemFlagged fixRemPayload 5000000).reminderSent
      = false ∧
    remindersFor (checkUpcomingSessionReminders
      [editedSessionRecord fixRemFlagged fixRemPayload 5000000]
      4500000).2 "r1" = 1 := by
  have h1 := reminder_idempotence.1 [fixRem] "r1" fixRem 940000 1000000
    (by decide) (List.mem_singleton.mpr rfl) rfl rfl rfl (by decide)
    (by decide)
  have hok : editSession ["ClubA"] [fixRemFlagged] "olga" "r1"
      fixRemPayload 900000
      = .ok ([editedSessionRecord fixRemFlagged fixRemPayload 5000000],
             editedSessionRecord fixRemFlagged fixRemPayload 5000000) := rfl
  have h2 := reminder_idempotence.2.1 ["ClubA"] [fixRemFlagged] "olga"
    "r1" fixRemPayload 900000
    [editedSessionRecord fixRemFlagged fixRemPayload 5000000]
    (editedSessionRecord fixRemFlagged fixRemPayload 5000000)
    fixRemFlagged rfl hok (by decide)
  have h3 := reminder_idempotence.2.2 ["ClubA"] [fixRemFlagged] "olga"
    "r1" fixRemPayload 900000
    [editedSessionRecord fixRemFlagged fixRemPayload 5000000]
    (editedSessionRecord fixRemFlagged fixRemPayload 5000000)
    fixRemFlagged 4500000 5000000 rfl hok (by decide) (by decide) rfl
    (by decide) (by decide)
  exact ⟨h1.1, h1.2 [941000, 942000], h2.1, h3.1⟩

/-- C8 (confirmed): in one dispatch call, every candidate subscription
is attempted regardless of other deliveries' outcomes; immediately
after the call returns, every candidate whose delivery failed with 410
or 404 is absent from the persisted Users collection, and every
subscription whose delivery did not fail with 410/404 (succeeded,
failed otherwise, or was not targeted) is still present. -/
theorem subscription_pruning (users : List User)
    (deliver : String → DeliveryResult) (targetUser : Option String)
    (excludedUsers : Option (List String)) :
    (∀ sub ∈ getAllSubscriptions users targetUser excludedUsers,
      sub.endpoint
        ∈ (sendPushNotifications users deliver targetUser
            excludedUsers).2.1) ∧
    (∀ info ∈ getAllSubscriptions users targetUser excludedUsers,
      prunableFailure (deliver info.endpoint) = true →
      ∀ u' ∈ (sendPushNotifications users deliver targetUser
          excludedUsers).1,
        ∀ sub ∈ u'.pushSubscriptions, sub.endpoint ≠ info.endpoint) ∧
    (∀ u ∈ users, ∀ sub ∈ u.pushSubscriptions,
      prunableFailure (deliver sub.endpoint) = false →
      ∃ u' ∈ (sendPushNotifications users deliver targetUser
          excludedUsers).1,
        sub ∈ u'.pushSubscriptions) := by
  refine ⟨?_, ?_, ?_⟩
  · intro sub hsub
    unfold sendPushNotifications
    split_ifs
    · exact List.mem_map.mpr ⟨sub, hsub, rfl⟩
    · exact List.mem_map.mpr ⟨sub, hsub, rfl⟩
  · intro info hinfo hp u' hu' sub hsub heq
    have hfail := prunable_mem_failedEndpointsOf hinfo hp
    have hcond : (failedEndpointsOf users deliver targetUser
        excludedUsers).isEmpty = false := by
      cases hl : failedEndpointsOf users deliver targetUser excludedUsers with
      | nil => exact absurd hfail (by simp [hl])
      | cons a l => rfl
    unfold sendPushNotifications at hu'
    rw [if_neg (by simp [hcond])] at hu'
    have hu'' : u' ∈ prunedUsers users
        (failedEndpointsOf users deliver targetUser excludedUsers) := hu'
    obtain ⟨u, hu, hmap⟩ := List.mem_map.mp hu''
    rw [← hmap] at hsub
    have hnotin := (List.mem_filter.mp hsub).2
    rw [heq] at hnotin
    simp at hnotin
    exact hnotin (by simpa using hfail)
  · intro u hu sub hsub hp
    unfold sendPushNotifications
    split_ifs with hc
    · exact ⟨u, hu, hsub⟩
    · refine ⟨_, List.mem_map.mpr ⟨u, hu, rfl⟩, ?_⟩
      refine List.mem_filter.mpr ⟨hsub, ?_⟩
      have hnot : sub.endpoint ∉ failedEndpointsOf users deliver
          targetUser excludedUsers := by
        intro hin
        rw [mem_failedEndpointsOf_prunable hin] at hp
        exact Bool.noConfusion hp
      simpa using hnot

/-- C8 witness: with the concrete transport, the gone endpoint is
absent from every persisted user while the transiently failing
subscription survives, and its endpoint was attempted. -/
theorem subscription_pruning_witness :
    ("ep-dave" ∈ (sendPushNotifications fixScnUsers fixDeliver none
        none).2.1) ∧
    (∀ u' ∈ (sendPushNotifications fixScnUsers fixDeliver none none).1,
      ∀ sub ∈ u'.pushSubscriptions, sub.endpoint ≠ "ep-alice") ∧
    (∃ u' ∈ (sendPushNotifications fixScnUsers fixDeliver none none).1,
      (⟨"ep-dave", "k3", none, 0, none⟩ : PushSubscription)
        ∈ u'.pushSubscriptions) := by
  have h := subscription_pruning fixScnUsers fixDeliver none none
  refine ⟨?_, ?_, ?_⟩
  · exact h.1 ⟨"ep-dave", "k3", none, "dave", 0, none⟩ (by decide)
  · exact h.2.1 ⟨"ep-alice", "k2", none, "alice", 0, none⟩ (by decide) rfl
  · exact h.2.2 ⟨"dave", "dave", "h3", 0, [⟨"ep-dave", "k3", none, 0, none⟩]⟩
      (by decide) ⟨"ep-dave", "k3", none, 0, none⟩ (by decide) rfl

end Badly
